import Mathlib

/-!
Shallow embedding of the babel-plugin-metalog rewriter (src/index.js).

The plugin walks a parsed JavaScript program, finds labeled statements whose
label is a key of its alias table, and either deletes them (strip policy) or
rewrites every expression statement in the label body into a call to a
configured log function carrying literal-encoded call-site metadata.

The embedding models the Babel AST fragment the plugin manipulates as an
inductive type, the plugin options and environment-variable overrides as
records, and the LabeledStatement visitor as a function from a label
occurrence to an explicit outcome (unchanged / removed / replaced-with) or a
thrown JavaScript error.
-/

namespace Metalog

/-- The fragment of the Babel AST the plugin reads or builds.  The handled
flag on exprStmt models the Symbol-keyed marker the visitor attaches to the
replacement statements it synthesizes (src/index.js line 63 and 355).
templatedStr models the node produced by the external template primitive when
a compiled user alias template is expanded; it records the template source and
the single substitution argument the wrapper actually forwards (a string). -/
inductive JsNode where
  | identifier (name : String)
  | stringLit (s : String)
  | boolLit (b : Bool)
  | numLit (n : Nat)
  | seqExpr (exprs : List JsNode)
  | callExpr (callee : JsNode) (args : List JsNode)
  | objectExpr (props : List (String × JsNode))
  | arrayExpr (elems : List JsNode)
  | assignExpr (lhs rhs : JsNode)
  | updateExpr (arg : JsNode)
  | yieldExpr (arg : JsNode)
  | funcExpr (id : Option String) (params : List String) (body : List JsNode)
  | varDecl (name : String) (init : JsNode)
  | returnStmt (arg : JsNode)
  | exprStmt (handled : Bool) (expr : JsNode)
  | labeledStmt (label : String) (body : JsNode)
  | blockStmt (stmts : List JsNode)
  | templatedStr (src : String) (arg : String)
deriving Repr

/-- Reads the handled marker of a statement node (src/index.js line 339:
statement.node[$handled]).  Only synthesized replacements carry it. -/
def stmtHandled : JsNode → Bool
  | .exprStmt h _ => h
  | _ => false

/-- True exactly for block statements (path.get(body).isBlockStatement(),
src/index.js line 360). -/
def isBlockStmtNode : JsNode → Bool
  | .blockStmt _ => true
  | _ => false

mutual

/-- Whether the purity-checking traversal of src/index.js lines 334-337 finds
an offending node in this subtree: the visitor key
VariableDeclaration|Function|AssignmentExpression|UpdateExpression|YieldExpression|ReturnStatement
throws on the first match while the traversal visits every descendant
(including, after replaceWith requeues the synthesized statement, the original
expression that was embedded in its content array), so the transform errors
exactly when such a node occurs anywhere in the labeled statement. -/
def nodeHasSideEffect : JsNode → Bool
  | .identifier _ => false
  | .stringLit _ => false
  | .boolLit _ => false
  | .numLit _ => false
  | .seqExpr es => listHasSideEffect es
  | .callExpr c args => nodeHasSideEffect c || listHasSideEffect args
  | .objectExpr props => propsHaveSideEffect props
  | .arrayExpr es => listHasSideEffect es
  | .assignExpr _ _ => true
  | .updateExpr _ => true
  | .yieldExpr _ => true
  | .funcExpr _ _ _ => true
  | .varDecl _ _ => true
  | .returnStmt _ => true
  | .exprStmt _ e => nodeHasSideEffect e
  | .labeledStmt _ b => nodeHasSideEffect b
  | .blockStmt ss => listHasSideEffect ss
  | .templatedStr _ _ => false

def listHasSideEffect : List JsNode → Bool
  | [] => false
  | n :: ns => nodeHasSideEffect n || listHasSideEffect ns

def propsHaveSideEffect : List (String × JsNode) → Bool
  | [] => false
  | (_, n) :: ps => nodeHasSideEffect n || propsHaveSideEffect ps

end

/-- The record produced by collectMetadata (src/index.js lines 257-265).
Note the exact field list: there is no context field. -/
structure Metadata where
  indent : Nat
  parentPath : List String
  hasStartMessage : Bool
  isStartMessage : Bool
  filename : String
  filepath : String
  line : Nat
deriving Repr, DecidableEq

/-- JavaScript String.prototype.toLowerCase, computed on the character
list. -/
def jsToLower (s : String) : String := ⟨s.data.map Char.toLower⟩

/-- Drops leading and trailing whitespace from a character list. -/
def trimChars (l : List Char) : List Char :=
  ((l.dropWhile Char.isWhitespace).reverse.dropWhile Char.isWhitespace).reverse

/-- JavaScript String.prototype.trim, computed on the character list. -/
def jsTrim (s : String) : String := ⟨trimChars s.data⟩

/-- Splits a character list at every occurrence of the separator. -/
def splitCharAux (sep : Char) : List Char → List Char → List (List Char)
  | [], acc => [acc.reverse]
  | c :: cs, acc =>
    if c = sep then acc.reverse :: splitCharAux sep cs []
    else splitCharAux sep cs (c :: acc)

/-- Splits a string at every comma. -/
def jsSplitComma (s : String) : List String :=
  (splitCharAux ',' s.data []).map (fun l => ⟨l⟩)

/-- Whether pat occurs as a contiguous run inside hay. -/
def listContains (hay pat : List Char) : Bool :=
  match hay with
  | [] => pat.isEmpty
  | _ :: t => pat.isPrefixOf hay || listContains t pat

/-- Model of fspath.resolve(process.cwd(), filename) (src/index.js lines
194-197): an already-absolute filename is kept, otherwise it is joined onto
the working directory.  Dot-segment normalization is not modeled; the claims
only use plain relative filenames. -/
def pathResolve (cwd filename : String) : String :=
  if filename.data.head? = some '/' then filename else cwd ++ "/" ++ filename

/-- JavaScript s.indexOf(pat) !== -1, i.e. substring containment
(src/index.js lines 298 and 301). -/
def jsIncludes (s pat : String) : Bool :=
  listContains s.data pat.data

/-- normalizeEnv (src/index.js lines 78-85): split a comma-separated
environment variable, lower-case and trim each token, drop empty tokens.
The regex split on commas with surrounding whitespace followed by the
per-token trim is modeled as a split on the comma followed by the same
trim. -/
def normalizeEnv (input : Option String) : List String :=
  match input with
  | none => []
  | some s =>
    if s == "" then []
    else ((jsSplitComma s).map (fun ctx => jsTrim (jsToLower ctx))).filter (fun id => id ≠ "")

/-- The opts.strip configuration value: absent or false (or any other falsy
value), true, an environment-name string, or a mapping from environment name
to boolean (src/index.js type PluginOptions, line 17). -/
inductive StripOpt where
  | disabled
  | all
  | envName (s : String)
  | byEnv (m : List (String × Bool))
deriving Repr, DecidableEq

/-- JavaScript truthiness test !opts.strip (src/index.js line 277): false and
absent are modeled by disabled, and the empty string is also falsy. -/
def stripFalsy : StripOpt → Bool
  | .disabled => true
  | .envName s => s == ""
  | _ => false

/-- The three-way match of src/index.js lines 281-290: opts.strip === true,
or opts.strip a string equal to process.env.NODE_ENV, or
opts.strip[process.env.NODE_ENV] === true.  Indexing a string or the boolean
true by an environment name never yields the value true, so those branches
collapse into the cases below. -/
def stripMatch : StripOpt → String → Bool
  | .disabled, _ => false
  | .all, _ => true
  | .envName s, env => s == env
  | .byEnv m, env => (m.lookup env).getD false

/-- The process-wide state the plugin reads: NODE_ENV and the three
TRACE_CONTEXT / TRACE_FILE / TRACE_LEVEL override lists, the latter already
passed through normalizeEnv (src/index.js lines 71-73). -/
structure EnvCtx where
  nodeEnv : String
  preserveContexts : List String
  preserveFiles : List String
  preserveLevels : List String
deriving Repr

/-- A thrown JavaScript error: either a runtime TypeError or the
call-site-attributed error built by path.buildCodeFrameError. -/
inductive JsError where
  | typeError (msg : String)
  | codeFrameError (msg : String)
deriving Repr, DecidableEq

/-- hasStripOverride (src/index.js lines 297-310).  When PRESERVE_CONTEXTS is
non-empty the first branch evaluates metadata.context.toLowerCase(); the
Metadata record has no context field (collectMetadata never produces one), so
in JavaScript this reads undefined and the call throws a TypeError before any
other override can be consulted. -/
def hasStripOverride (env : EnvCtx) (name : String) (metadata : Metadata) : Except JsError Bool :=
  if env.preserveContexts ≠ [] then
    .error (.typeError "Cannot read property toLowerCase of undefined")
  else if (!env.preserveFiles.isEmpty) && env.preserveFiles.any (fun f => jsIncludes (jsToLower metadata.filename) f) then
    .ok true
  else if (!env.preserveLevels.isEmpty) && env.preserveLevels.any (fun l => l == jsToLower name) then
    .ok true
  else
    .ok false

/-- shouldStrip (src/index.js lines 272-295): falsy strip never strips; a
match on the strip policy strips unless hasStripOverride grants an exception;
anything else never strips. -/
def shouldStrip (env : EnvCtx) (name : String) (metadata : Metadata) (strip : StripOpt) : Except JsError Bool :=
  if stripFalsy strip then .ok false
  else if stripMatch strip env.nodeEnv then
    (hasStripOverride env name metadata).map (fun b => !b)
  else .ok false

/-- A value stored in the alias table: a built-in synthesizer produced by
makeNrserLog (a closure over its values flag and level, src/index.js lines
125-138), a user-supplied template source string, or the synthesizer obtained
by compiling such a string once (src/index.js lines 114-119). -/
inductive AliasVal where
  | builtin (values : Bool) (level : String)
  | templateStr (src : String)
  | compiled (src : String)
deriving Repr, DecidableEq

/-- JavaScript truthiness of an alias-table value: functions are truthy, a
string is truthy unless empty. -/
def aliasValTruthy : AliasVal → Bool
  | .templateStr s => s ≠ ""
  | _ => true

/-- The 15 default alias entries installed when opts.aliases is absent
(src/index.js lines 105-112): for each level, the bare name and the Values
variant call makeNrserLog with the values flag defaulted to true, and the
Refs variant calls it with values false. -/
def defaultAliases : List (String × AliasVal) :=
  (["error", "warn", "info", "debug", "trace"].map (fun level =>
    [(level, AliasVal.builtin true level),
     (level ++ "Values", AliasVal.builtin true level),
     (level ++ "Refs", AliasVal.builtin false level)])).flatten

/-- The per-entry normalization of a user alias table (src/index.js lines
114-119): a non-empty string value is compiled once into a synthesizer;
every other value (including the falsy empty string) is left as it is. -/
def compileAlias : AliasVal → AliasVal
  | .templateStr src => if src == "" then .templateStr src else .compiled src
  | v => v

/-- The plugin options object.  aliases is none when the option is absent;
normalized models the Symbol-keyed marker (src/index.js line 64). -/
structure Opts where
  aliases : Option (List (String × AliasVal))
  strip : StripOpt
  logFunction : Option String
  normalized : Bool
deriving Repr, DecidableEq

/-- normalizeOpts (src/index.js lines 101-123): a no-op once the normalized
marker is set; otherwise installs the 15 defaults when aliases is absent, or
compiles each string-valued entry, and sets the marker. -/
def normalizeOpts (opts : Opts) : Opts :=
  if opts.normalized then opts
  else
    match opts.aliases with
    | none => { opts with aliases := some defaultAliases, normalized := true }
    | some al => { opts with aliases := some (al.map (fun kv => (kv.1, compileAlias kv.2))), normalized := true }

/-- opts.logFunction || METALOG (src/index.js line 332). -/
def jsLogFunction : Option String → String
  | none => "METALOG"
  | some s => if s == "" then "METALOG" else s

/-- Property names every plain JavaScript object inherits from
Object.prototype.  The alias table is a plain object ({} or the user-supplied
options object), so opts.aliases[name] finds these even when they are not own
entries of the table. -/
def objectProtoKeys : List String :=
  ["constructor", "hasOwnProperty", "isPrototypeOf", "propertyIsEnumerable",
   "toLocaleString", "toString", "valueOf"]

/-- Outcome of the property read opts.aliases[label.node.name]
(src/index.js lines 247 and 322): an own entry of the table, a member
inherited from Object.prototype, or undefined. -/
inductive LookupResult where
  | own (v : AliasVal)
  | inherited
  | missing
deriving Repr, DecidableEq

/-- The property read itself: own entries shadow the prototype; otherwise the
standard Object.prototype members are found; otherwise undefined. -/
def aliasLookup (al : List (String × AliasVal)) (name : String) : LookupResult :=
  match al.lookup name with
  | some v => .own v
  | none => if name ∈ objectProtoKeys then .inherited else .missing

/-- Truthiness of the property read, as tested by
if (!opts.aliases[label.node.name]) (src/index.js line 322) and by the
start-message scan (line 247): inherited prototype members are functions and
therefore truthy. -/
def aliasTruthy : LookupResult → Bool
  | .own v => aliasValTruthy v
  | .inherited => true
  | .missing => false

/-- The content expansion of nrserLog (src/index.js lines 172-178):
a sequence expression contributes its subexpressions, anything else is
wrapped as a one-element array. -/
def contentParts : JsNode → List JsNode
  | .seqExpr es => es
  | c => [c]

/-- nrserLog (src/index.js lines 149-185): the fixed template, expanded with
the literal arguments built by addIdentifiers, yields a call to the log
function whose single argument is an object literal with exactly the keys
values, level, filename, filepath, content, line and parentPath. -/
def nrserLog (logFunction : String) (content : JsNode) (metadata : Metadata)
    (values : Bool) (level : String) : JsNode :=
  .callExpr (.identifier logFunction)
    [.objectExpr
      [("values", .boolLit values),
       ("level", .stringLit level),
       ("filename", .stringLit metadata.filename),
       ("filepath", .stringLit metadata.filepath),
       ("content", .arrayExpr (contentParts content)),
       ("line", .numLit metadata.line),
       ("parentPath", .arrayExpr (metadata.parentPath.map JsNode.stringLit))]]

/-- The argument the external template primitive receives when a synthesizer
is invoked: either a single string value, or a table of named substitution
slots carrying the log-function name, the content node and the metadata. -/
inductive TemplateArg where
  | jsString (s : String)
  | slots (logFunction : String) (content : JsNode) (metadata : Metadata)
deriving Repr

/-- What the compiled user-alias wrapper actually passes to the template
(src/index.js line 117 read together with line 353): the wrapper
(message) => expr(message) declares a single parameter, so the invocation
aliases[name](logFunction, content, metadata) binds message to the
logFunction string and discards the content node and the metadata. -/
def userSynthArg (logFunction : String) (_content : JsNode) (_metadata : Metadata) : TemplateArg :=
  TemplateArg.jsString logFunction

/-- Follows the spec wording for the user-alias synthesizer: the template is
expanded with the logFunction, content and metadata triple available as named
substitution slots.  Stated for comparison with userSynthArg, which is what
the code does. -/
def specUserSynthArg (logFunction : String) (content : JsNode) (metadata : Metadata) : TemplateArg :=
  TemplateArg.slots logFunction content metadata

/-- The invocation opts.aliases[label.node.name](logFunction, content,
metadata) (src/index.js line 353).  A built-in entry runs makeNrserLog's
closure, i.e. nrserLog; a compiled user entry expands its template with the
single forwarded argument (see userSynthArg); invoking a string or an
inherited Object.prototype member does not produce an expression node, which
surfaces as a thrown TypeError. -/
def invokeAlias : LookupResult → String → JsNode → Metadata → Except JsError JsNode
  | .own (.builtin values level), lf, content, md => .ok (nrserLog lf content md values level)
  | .own (.compiled src), lf, _, _ => .ok (.templatedStr src lf)
  | .own (.templateStr _), _, _, _ => .error (.typeError "alias value is not a function")
  | .inherited, _, _, _ => .error (.typeError "inherited Object.prototype member does not synthesize an expression node")
  | .missing, _, _, _ => .error (.typeError "alias value is not a function")

mutual

/-- The ExpressionStatement visitor of src/index.js lines 338-357 applied
throughout a label body: an already-handled statement is left alone, an
unhandled expression statement is replaced by the synthesized call marked
handled, and the traversal reaches statements nested in blocks and in nested
labeled statements. -/
def rewriteStmt (lk : LookupResult) (lf : String) (md : Metadata) : JsNode → Except JsError JsNode
  | .exprStmt true e => .ok (.exprStmt true e)
  | .exprStmt false e => (invokeAlias lk lf e md).map (.exprStmt true)
  | .blockStmt ss => (rewriteStmts lk lf md ss).map .blockStmt
  | .labeledStmt l b => (rewriteStmt lk lf md b).map (.labeledStmt l)
  | s => .ok s

def rewriteStmts (lk : LookupResult) (lf : String) (md : Metadata) : List JsNode → Except JsError (List JsNode)
  | [] => .ok []
  | s :: ss => do
    let s' ← rewriteStmt lk lf md s
    let ss' ← rewriteStmts lk lf md ss
    return s' :: ss'

end

/-- One entry of path.getAncestry().slice(1), classified by the predicates
the reduce of src/index.js lines 205-233 tests: class method (with its key
name, none when computed), class declaration and function (with their
optional id and their starting source line, used by the anonymous
placeholders), program, class body, block statement, or anything else. -/
inductive Ancestor where
  | classMethod (key : Option String)
  | classDeclaration (id : Option String) (line : Nat)
  | functionDef (id : Option String) (line : Nat)
  | program
  | classBody
  | blockStatement
  | other
deriving Repr, DecidableEq

/-- The accumulator of that reduce: the parentPath parts built by prepending,
whether the nearest enclosing parent scope has been found, and the indent
counter that only advances before the parent is found. -/
structure MdAcc where
  parts : List String
  parentFound : Bool
  indent : Nat
deriving Repr, DecidableEq

/-- One step of the reduce (src/index.js lines 205-233).  Scope-like
ancestors contribute their (placeholder) name to the parts and mark the
parent as found; class bodies and block statements are skipped; any other
ancestor met before the parent increments indent. -/
def mdStep (acc : MdAcc) : Ancestor → MdAcc
  | .classMethod key =>
      { acc with parts := key.getD "[computed method]" :: acc.parts, parentFound := true }
  | .classDeclaration id line =>
      { acc with parts := id.getD ("[anonymous class@" ++ toString line ++ "]") :: acc.parts,
                 parentFound := true }
  | .functionDef id line =>
      { acc with parts := id.getD ("[anonymous@" ++ toString line ++ "]") :: acc.parts,
                 parentFound := true }
  | .program => { acc with parentFound := true }
  | .classBody => acc
  | .blockStatement => acc
  | .other => if acc.parentFound then acc else { acc with indent := acc.indent + 1 }

/-- Whether an ancestor is one of the kinds that become the parent scope. -/
def ancIsParent : Ancestor → Bool
  | .classMethod _ => true
  | .classDeclaration _ _ => true
  | .functionDef _ _ => true
  | .program => true
  | _ => false

/-- The parent variable after the reduce: the innermost ancestor of a
parent kind (if (!parent) parent = item in src/index.js). -/
def nearestParent (ancestry : List Ancestor) : Option Ancestor :=
  ancestry.find? (fun a => ancIsParent a)

/-- The start-message scan of src/index.js lines 238-254 over the parent
scope's statement list: an already-handled statement means an earlier label
was rewritten here (hasStartMessage, stop); a non-labeled statement stops the
scan; a labeled statement whose label reads as a truthy alias sets
hasStartMessage, and additionally isStartMessage when it is the statement
being processed (identified by its position selfIdx); a labeled statement
with a falsy alias read is skipped.  Returns (hasStartMessage,
isStartMessage). -/
def startScan (al : List (String × AliasVal)) (selfIdx : Nat) : Nat → List JsNode → Bool × Bool
  | _, [] => (false, false)
  | i, child :: rest =>
    if stmtHandled child then (true, false)
    else
      match child with
      | .labeledStmt l _ =>
        if aliasTruthy (aliasLookup al l) then (true, i == selfIdx)
        else startScan al selfIdx (i + 1) rest
      | _ => (false, false)

/-- The tree context of one labeled-statement occurrence, i.e. everything
collectMetadata reads from the node path and the host file: the file name
and working directory, the 1-based starting line, the ancestor chain
(self excluded, innermost first), and, when the nearest parent scope is a
function or method, its direct statement list together with the position of
this labeled statement in it (used by the identity comparison
child.node === path.node). -/
structure LabelSite where
  filename : String
  cwd : String
  line : Nat
  ancestry : List Ancestor
  parentBody : Option (List JsNode × Nat)
deriving Repr

/-- collectMetadata (src/index.js lines 191-266): file name, resolved
absolute file path, source line, the parentPath/indent reduce over the
ancestry, and the start-message scan (run only when a parent was found and it
is not the program). -/
def collectMetadata (al : List (String × AliasVal)) (site : LabelSite) : Metadata :=
  let acc := site.ancestry.foldl mdStep { parts := [], parentFound := false, indent := 0 }
  let flags : Bool × Bool :=
    match nearestParent site.ancestry with
    | none => (false, false)
    | some .program => (false, false)
    | some _ =>
      match site.parentBody with
      | some (body, selfIdx) => startScan al selfIdx 0 body
      | none => (false, false)
  { indent := acc.indent,
    parentPath := acc.parts,
    hasStartMessage := flags.1,
    isStartMessage := flags.2,
    filename := site.filename,
    filepath := pathResolve site.cwd site.filename,
    line := site.line }

/-- Outcome of the LabeledStatement visitor for one labeled statement:
left untouched (alias read falsy), removed (strip), or replaced by the listed
statements (the unwrapped, rewritten body). -/
inductive LabelResult where
  | unchanged
  | removed
  | replaced (stmts : List JsNode)
deriving Repr

/-- The unwrap of src/index.js lines 360-365: a block-statement body is
spliced in as its statement list (replaceWithMultiple), any other body
becomes the single statement put in place of the label (replaceWith). -/
def unwrapBody : JsNode → List JsNode
  | .blockStmt ss => ss
  | s => [s]

/-- The purity check and body rewrite of src/index.js lines 334-365: a side
effect anywhere in the labeled statement is the fatal code-frame error;
otherwise every unhandled expression statement is replaced by its synthesized
call, and the label wrapper is unwrapped around the rewritten body. -/
def processRewrite (lk : LookupResult) (lf : String) (md : Metadata) (body : JsNode) :
    Except JsError LabelResult :=
  if nodeHasSideEffect body then
    .error (.codeFrameError "Logging statements cannot have side effects.")
  else
    (rewriteStmt lk lf md body).map (fun b => .replaced (unwrapBody b))

/-- The strip decision and its consequences (src/index.js lines 326-332):
collect the metadata, then either remove the whole labeled statement, or
propagate a thrown override error, or go on to rewrite with the configured
log-function name. -/
def processMatched (env : EnvCtx) (opts' : Opts) (al : List (String × AliasVal))
    (lk : LookupResult) (site : LabelSite) (name : String) (body : JsNode) :
    Except JsError LabelResult :=
  let md := collectMetadata al site
  match shouldStrip env name md opts'.strip with
  | .error e => .error e
  | .ok true => .ok .removed
  | .ok false => processRewrite lk (jsLogFunction opts'.logFunction) md body

/-- The LabeledStatement visitor (src/index.js lines 318-366): normalize the
options, read the alias table at the label name, return the statement
untouched when the read is falsy, and otherwise run the strip decision and
the rewrite. -/
def processLabeled (env : EnvCtx) (opts : Opts) (site : LabelSite) (name : String)
    (body : JsNode) : Except JsError LabelResult :=
  let opts' := normalizeOpts opts
  let al := opts'.aliases.getD []
  let lk := aliasLookup al name
  if aliasTruthy lk then processMatched env opts' al lk site name body
  else .ok .unchanged

/-- Which alias-table values can be invoked as a synthesizer without
throwing: the built-in closures and the compiled user templates.  After
normalizeOpts every truthy entry of the table is of this shape. -/
def aliasInvocable : AliasVal → Bool
  | .builtin _ _ => true
  | .compiled _ => true
  | .templateStr _ => false

/-- The node an invocable alias entry synthesizes, read off from invokeAlias:
built-ins produce the nrserLog call, compiled templates produce their
expansion with the forwarded log-function string.  The templateStr line is
unreachable through invokeAlias_eq_synthOf, whose hypothesis excludes it. -/
def synthOf (v : AliasVal) (lf : String) (md : Metadata) (content : JsNode) : JsNode :=
  match v with
  | .builtin values level => nrserLog lf content md values level
  | .compiled src => .templatedStr src lf
  | .templateStr src => .templatedStr src lf

mutual

/-- Total form of rewriteStmt for a synthesizer that cannot throw: every
unhandled expression statement becomes the handled synthesized statement,
blocks and nested labels are rewritten pointwise, everything else is kept. -/
def rewritePure (synth : JsNode → JsNode) : JsNode → JsNode
  | .exprStmt true e => .exprStmt true e
  | .exprStmt false e => .exprStmt true (synth e)
  | .blockStmt ss => .blockStmt (rewritePures synth ss)
  | .labeledStmt l b => .labeledStmt l (rewritePure synth b)
  | s => s

def rewritePures (synth : JsNode → JsNode) : List JsNode → List JsNode
  | [] => []
  | s :: ss => rewritePure synth s :: rewritePures synth ss

end

/-- Environment with NODE_ENV test and all three TRACE_* variables unset. -/
def envEmpty : EnvCtx :=
  { nodeEnv := "test",
    preserveContexts := normalizeEnv none,
    preserveFiles := normalizeEnv none,
    preserveLevels := normalizeEnv none }

/-- Plugin invoked with no options: no aliases, no strip, no logFunction. -/
def defaultOpts : Opts :=
  { aliases := none, strip := .disabled, logFunction := none, normalized := false }

/-- Plugin invoked with strip true and no other options. -/
def stripAllOpts : Opts :=
  { aliases := none, strip := .all, logFunction := none, normalized := false }

/-- The expression foo(). -/
def fooCall : JsNode := .callExpr (.identifier "foo") []

/-- The expression bar(). -/
def barCall : JsNode := .callExpr (.identifier "bar") []

/-- A sample metadata record, as collectMetadata would produce for a label
directly inside a function doSomething in file a.js at line 7. -/
def mdSample : Metadata :=
  { indent := 0, parentPath := ["doSomething"], hasStartMessage := false,
    isStartMessage := false, filename := "a.js", filepath := "/proj/a.js", line := 7 }

/-- Ancestry of a labeled statement sitting directly in the block body of a
named function declaration inside the program. -/
def doSomethingAncestry : List Ancestor :=
  [.blockStatement, .functionDef (some "doSomething") 5, .program]

/-- The site of a debug label directly inside function doSomething in file
a.js at line 7, the only statement of the function body. -/
def c1Site : LabelSite :=
  { filename := "a.js", cwd := "/proj", line := 7,
    ancestry := doSomethingAncestry,
    parentBody := some ([.labeledStmt "debug" (.exprStmt false fooCall)], 0) }

/-- First of two adjacent debug labels at the top of a function body. -/
def c4Label1 : JsNode := .labeledStmt "debug" (.exprStmt false fooCall)

/-- Second of two adjacent debug labels at the top of a function body. -/
def c4Label2 : JsNode := .labeledStmt "debug" (.exprStmt false barCall)

/-- Site of the first of the two adjacent debug labels, while both are still
in the function body. -/
def c4Site1 : LabelSite :=
  { filename := "a.js", cwd := "/proj", line := 2,
    ancestry := [.blockStatement, .functionDef (some "f") 1, .program],
    parentBody := some ([c4Label1, c4Label2], 0) }

/-- The handled statement the rewriter substitutes for the first debug
label. -/
def c4Replacement1 : JsNode :=
  .exprStmt true (nrserLog "METALOG" fooCall (collectMetadata defaultAliases c4Site1) true "debug")

/-- Site of the second debug label after the first has been rewritten into
the handled replacement statement. -/
def c4Site2 : LabelSite :=
  { filename := "a.js", cwd := "/proj", line := 3,
    ancestry := [.blockStatement, .functionDef (some "f") 1, .program],
    parentBody := some ([c4Replacement1, c4Label2], 1) }

/-- Site of a toString label directly inside function doSomething in file
b.js. -/
def c9Site : LabelSite :=
  { filename := "b.js", cwd := "/proj", line := 4,
    ancestry := doSomethingAncestry,
    parentBody := some ([.labeledStmt "toString" (.exprStmt false fooCall)], 0) }

/-- An invocable own alias entry synthesizes exactly the node described by
synthOf. -/
theorem invokeAlias_eq_synthOf (v : AliasVal) (lf : String) (content : JsNode) (md : Metadata)
    (hv : aliasInvocable v = true) :
    invokeAlias (.own v) lf content md = .ok (synthOf v lf md content) := by
  cases v <;> simp_all [invokeAlias, synthOf, aliasInvocable]

mutual

/-- When the synthesizer of the looked-up alias cannot throw, rewriteStmt
succeeds and computes the total rewrite. -/
theorem rewriteStmt_eq_pure (lk : LookupResult) (lf : String) (md : Metadata)
    (synth : JsNode → JsNode) (hsyn : ∀ c, invokeAlias lk lf c md = .ok (synth c)) :
    ∀ s : JsNode, rewriteStmt lk lf md s = .ok (rewritePure synth s)
  | .identifier _ => rfl
  | .stringLit _ => rfl
  | .boolLit _ => rfl
  | .numLit _ => rfl
  | .seqExpr _ => rfl
  | .callExpr _ _ => rfl
  | .objectExpr _ => rfl
  | .arrayExpr _ => rfl
  | .assignExpr _ _ => rfl
  | .updateExpr _ => rfl
  | .yieldExpr _ => rfl
  | .funcExpr _ _ _ => rfl
  | .varDecl _ _ => rfl
  | .returnStmt _ => rfl
  | .exprStmt true _ => rfl
  | .exprStmt false e => by
    rw [rewriteStmt, hsyn e, rewritePure]
    rfl
  | .labeledStmt l b => by
    rw [rewriteStmt, rewriteStmt_eq_pure lk lf md synth hsyn b, rewritePure]
    rfl
  | .blockStmt ss => by
    rw [rewriteStmt, rewriteStmts_eq_pure lk lf md synth hsyn ss, rewritePure]
    rfl
  | .templatedStr _ _ => rfl

theorem rewriteStmts_eq_pure (lk : LookupResult) (lf : String) (md : Metadata)
    (synth : JsNode → JsNode) (hsyn : ∀ c, invokeAlias lk lf c md = .ok (synth c)) :
    ∀ ss : List JsNode, rewriteStmts lk lf md ss = .ok (rewritePures synth ss)
  | [] => rfl
  | s :: ss => by
    rw [rewriteStmts, rewriteStmt_eq_pure lk lf md synth hsyn s,
        rewriteStmts_eq_pure lk lf md synth hsyn ss, rewritePures]
    rfl

end

/-- The total rewrite of a statement list is the pointwise map of the total
rewrite, so it preserves the number and the order of the statements. -/
theorem rewritePures_eq_map (synth : JsNode → JsNode) :
    ∀ ss : List JsNode, rewritePures synth ss = ss.map (rewritePure synth) := by
  intro ss
  induction ss with
  | nil => rfl
  | cons s ss ih => rw [rewritePures, ih, List.map_cons]

/-- The total rewrite never turns a non-block statement into a block or a
block into a non-block. -/
theorem rewritePure_isBlock (synth : JsNode → JsNode) (s : JsNode) :
    isBlockStmtNode (rewritePure synth s) = isBlockStmtNode s := by
  cases s with
  | exprStmt h e => cases h <;> rfl
  | _ => rfl

/-- A non-block statement is unwrapped as itself. -/
theorem unwrapBody_nonblock (s : JsNode) (h : isBlockStmtNode s = false) :
    unwrapBody s = [s] := by
  cases s <;> simp_all [unwrapBody, isBlockStmtNode]

/-- A labeled statement whose alias read is truthy, whose strip decision is
false and whose body contains a side-effect construct is the fatal
code-frame error. -/
theorem processLabeled_sideEffect_error (env : EnvCtx) (opts : Opts) (site : LabelSite)
    (name : String) (body : JsNode)
    (htr : aliasTruthy (aliasLookup ((normalizeOpts opts).aliases.getD []) name) = true)
    (hstrip : shouldStrip env name
        (collectMetadata ((normalizeOpts opts).aliases.getD []) site)
        (normalizeOpts opts).strip = .ok false)
    (hse : nodeHasSideEffect body = true) :
    processLabeled env opts site name body =
      .error (.codeFrameError "Logging statements cannot have side effects.") := by
  simp [processLabeled, htr, processMatched, hstrip, processRewrite, hse]

/-- A labeled statement whose alias entry is an own invocable value, whose
strip decision is false and whose body is side-effect free is replaced by the
unwrapped total rewrite of its body. -/
theorem processLabeled_rewrites (env : EnvCtx) (opts : Opts) (site : LabelSite)
    (name : String) (body : JsNode) (v : AliasVal)
    (hlk : aliasLookup ((normalizeOpts opts).aliases.getD []) name = .own v)
    (hv : aliasInvocable v = true)
    (hstrip : shouldStrip env name
        (collectMetadata ((normalizeOpts opts).aliases.getD []) site)
        (normalizeOpts opts).strip = .ok false)
    (hse : nodeHasSideEffect body = false) :
    processLabeled env opts site name body =
      .ok (.replaced (unwrapBody (rewritePure
        (synthOf v (jsLogFunction (normalizeOpts opts).logFunction)
          (collectMetadata ((normalizeOpts opts).aliases.getD []) site)) body))) := by
  have htr : aliasTruthy (aliasLookup ((normalizeOpts opts).aliases.getD []) name) = true := by
    rw [hlk]; cases v <;> simp_all [aliasTruthy, aliasValTruthy, aliasInvocable]
  have hsyn : ∀ c, invokeAlias (aliasLookup ((normalizeOpts opts).aliases.getD []) name)
      (jsLogFunction (normalizeOpts opts).logFunction) c
      (collectMetadata ((normalizeOpts opts).aliases.getD []) site) =
      .ok (synthOf v (jsLogFunction (normalizeOpts opts).logFunction)
        (collectMetadata ((normalizeOpts opts).aliases.getD []) site) c) := by
    intro c
    rw [hlk]
    exact invokeAlias_eq_synthOf v _ c _ hv
  simp [processLabeled, htr, processMatched, hstrip, processRewrite, hse,
        rewriteStmt_eq_pure _ _ _ _ hsyn body, Except.map]

/-- C1: a labeled statement carrying a default (built-in) alias that is
rewritten, not stripped, is replaced by a call to the configured log function
whose single argument is an object literal with exactly the keys values,
level, filename, filepath, content, line and parentPath, whose literal values
equal the collected metadata; and a sequence-expression content contributes
one content entry per subexpression. -/
theorem rewrite_emits_full_metadata_call :
    (∀ (env : EnvCtx) (site : LabelSite) (name : String) (values : Bool) (level : String)
       (e : JsNode),
       aliasLookup defaultAliases name = .own (.builtin values level) →
       nodeHasSideEffect e = false →
       processLabeled env defaultOpts site name (.exprStmt false e) =
         .ok (.replaced [.exprStmt true (.callExpr (.identifier "METALOG")
           [.objectExpr
             [("values", .boolLit values),
              ("level", .stringLit level),
              ("filename", .stringLit site.filename),
              ("filepath", .stringLit (pathResolve site.cwd site.filename)),
              ("content", .arrayExpr (contentParts e)),
              ("line", .numLit site.line),
              ("parentPath", .arrayExpr
                ((collectMetadata defaultAliases site).parentPath.map JsNode.stringLit))]])]))
  ∧ (∀ es : List JsNode, contentParts (.seqExpr es) = es) := by
  constructor
  · intro env site name values level e hlk hse
    have hlk' : aliasLookup ((normalizeOpts defaultOpts).aliases.getD []) name =
        .own (.builtin values level) := hlk
    have h := processLabeled_rewrites env defaultOpts site name (.exprStmt false e)
      (.builtin values level) hlk' rfl rfl (by simpa [nodeHasSideEffect] using hse)
    rw [h]
    rfl
  · intro es
    rfl

/-- Witness for C1: a debug label directly inside the named function
doSomething in file a.js at line 7, logging the sequence expression
(a, b, c), becomes the METALOG call with level debug, values true, the
resolved absolute path, line 7, parentPath doSomething, and a three-entry
content array. -/
theorem rewrite_emits_full_metadata_call_witness :
    aliasLookup defaultAliases "debug" = .own (.builtin true "debug")
  ∧ nodeHasSideEffect (.seqExpr [.identifier "a", .identifier "b", .identifier "c"]) = false
  ∧ processLabeled envEmpty defaultOpts c1Site "debug"
      (.exprStmt false (.seqExpr [.identifier "a", .identifier "b", .identifier "c"])) =
      .ok (.replaced [.exprStmt true (.callExpr (.identifier "METALOG")
        [.objectExpr
          [("values", .boolLit true),
           ("level", .stringLit "debug"),
           ("filename", .stringLit "a.js"),
           ("filepath", .stringLit "/proj/a.js"),
           ("content", .arrayExpr [.identifier "a", .identifier "b", .identifier "c"]),
           ("line", .numLit 7),
           ("parentPath", .arrayExpr [.stringLit "doSomething"])]])]) :=
  ⟨rfl, rfl,
   rewrite_emits_full_metadata_call.1 envEmpty c1Site "debug" true "debug"
     (.seqExpr [.identifier "a", .identifier "b", .identifier "c"]) rfl rfl⟩

/-- C2 counterexample: with strip true (so the policy matches) and
TRACE_CONTEXT set, the claim as stated says the statement is stripped unless
an override applies; the code instead throws a TypeError while reading the
absent metadata.context, so the decision is neither to strip nor to
preserve. -/
theorem strip_policy_context_crash_cex :
    shouldStrip
        { nodeEnv := "test", preserveContexts := normalizeEnv (some "app"),
          preserveFiles := normalizeEnv none, preserveLevels := normalizeEnv none }
        "debug" mdSample .all
      = .error (.typeError "Cannot read property toLowerCase of undefined")
  ∧ shouldStrip
        { nodeEnv := "test", preserveContexts := normalizeEnv (some "app"),
          preserveFiles := normalizeEnv none, preserveLevels := normalizeEnv none }
        "debug" mdSample .all ≠ .ok true
  ∧ shouldStrip
        { nodeEnv := "test", preserveContexts := normalizeEnv (some "app"),
          preserveFiles := normalizeEnv none, preserveLevels := normalizeEnv none }
        "debug" mdSample .all ≠ .ok false := by
  have h : shouldStrip
      { nodeEnv := "test", preserveContexts := normalizeEnv (some "app"),
        preserveFiles := normalizeEnv none, preserveLevels := normalizeEnv none }
      "debug" mdSample .all
    = .error (.typeError "Cannot read property toLowerCase of undefined") := rfl
  refine ⟨h, ?_, ?_⟩ <;> rw [h] <;> simp

/-- C2 (amended): shouldStrip obeys the layered strip policy - a falsy strip
never strips, for any label, metadata and TRACE_* overrides; a non-matching
strip never strips; and when the policy matches and TRACE_CONTEXT is unset,
the statement is stripped exactly when neither a TRACE_FILE substring
override nor a TRACE_LEVEL equality override applies (with TRACE_CONTEXT set
the override check throws instead, see the context-field defect).  In
particular, with strip mapping production to true under NODE_ENV production,
a warn label is preserved when TRACE_LEVEL includes warn and stripped when no
override is set. -/
theorem strip_policy_layered :
    (∀ (env : EnvCtx) (name : String) (md : Metadata) (strip : StripOpt),
       stripFalsy strip = true → shouldStrip env name md strip = .ok false)
  ∧ (∀ (env : EnvCtx) (name : String) (md : Metadata) (strip : StripOpt),
       env.preserveContexts = [] → stripFalsy strip = false →
       stripMatch strip env.nodeEnv = true →
       shouldStrip env name md strip =
         .ok (!(((!env.preserveFiles.isEmpty) &&
                   env.preserveFiles.any (fun f => jsIncludes (jsToLower md.filename) f))
              || ((!env.preserveLevels.isEmpty) &&
                   env.preserveLevels.any (fun l => l == jsToLower name)))))
  ∧ (∀ (env : EnvCtx) (name : String) (md : Metadata) (strip : StripOpt),
       stripFalsy strip = false → stripMatch strip env.nodeEnv = false →
       shouldStrip env name md strip = .ok false)
  ∧ shouldStrip
      { nodeEnv := "production", preserveContexts := normalizeEnv none,
        preserveFiles := normalizeEnv none, preserveLevels := normalizeEnv (some "warn") }
      "warn" mdSample (.byEnv [("production", true)]) = .ok false
  ∧ shouldStrip
      { nodeEnv := "production", preserveContexts := normalizeEnv none,
        preserveFiles := normalizeEnv none, preserveLevels := normalizeEnv none }
      "warn" mdSample (.byEnv [("production", true)]) = .ok true := by
  refine ⟨?_, ?_, ?_, rfl, rfl⟩
  · intro env name md strip h
    simp [shouldStrip, h]
  · intro env name md strip hctx hf hm
    have hctx' : ¬ (env.preserveContexts ≠ []) := by simp [hctx]
    simp only [shouldStrip, hf, hm, Bool.false_eq_true, if_false, if_true,
               hasStripOverride, hctx', Except.map]
    cases hA : ((!env.preserveFiles.isEmpty) &&
        env.preserveFiles.any (fun f => jsIncludes (jsToLower md.filename) f)) <;>
      cases hB : ((!env.preserveLevels.isEmpty) &&
          env.preserveLevels.any (fun l => l == jsToLower name)) <;>
        simp [hA, hB, Except.map]
  · intro env name md strip hf hm
    simp [shouldStrip, hf, hm]

/-- Witness for C2: strip true under NODE_ENV production with TRACE_CONTEXT
and TRACE_FILE unset and TRACE_LEVEL warn preserves a warn label. -/
theorem strip_policy_layered_witness :
    shouldStrip
      { nodeEnv := "production", preserveContexts := [], preserveFiles := [],
        preserveLevels := ["warn"] }
      "warn" mdSample .all = .ok false :=
  strip_policy_layered.2.1
    { nodeEnv := "production", preserveContexts := [], preserveFiles := [],
      preserveLevels := ["warn"] }
    "warn" mdSample .all rfl rfl rfl

/-- C3: for a label carrying an own, invocable alias whose strip decision is
false, the rewriter throws the call-site-attributed side-effect error exactly
when the label body contains a variable declaration, function, assignment,
update, yield or return construct. -/
theorem purity_error_iff_side_effect (env : EnvCtx) (opts : Opts) (site : LabelSite)
    (name : String) (body : JsNode) (v : AliasVal)
    (hlk : aliasLookup ((normalizeOpts opts).aliases.getD []) name = .own v)
    (hv : aliasInvocable v = true)
    (hstrip : shouldStrip env name
        (collectMetadata ((normalizeOpts opts).aliases.getD []) site)
        (normalizeOpts opts).strip = .ok false) :
    processLabeled env opts site name body =
        .error (.codeFrameError "Logging statements cannot have side effects.")
      ↔ nodeHasSideEffect body = true := by
  constructor
  · intro hres
    by_contra hne
    have hse : nodeHasSideEffect body = false := by simpa using hne
    have h := processLabeled_rewrites env opts site name body v hlk hv hstrip hse
    rw [h] at hres
    simp at hres
  · intro hse
    have htr : aliasTruthy (aliasLookup ((normalizeOpts opts).aliases.getD []) name) = true := by
      rw [hlk]; cases v <;> simp_all [aliasTruthy, aliasValTruthy, aliasInvocable]
    exact processLabeled_sideEffect_error env opts site name body htr hstrip hse

/-- Witness for C3: the label debug: (x = 1); under default options is the
fatal side-effect error. -/
theorem purity_error_iff_side_effect_witness :
    processLabeled envEmpty defaultOpts c1Site "debug"
        (.exprStmt false (.assignExpr (.identifier "x") (.numLit 1))) =
      .error (.codeFrameError "Logging statements cannot have side effects.") :=
  (purity_error_iff_side_effect envEmpty defaultOpts c1Site "debug"
      (.exprStmt false (.assignExpr (.identifier "x") (.numLit 1)))
      (.builtin true "debug") rfl rfl rfl).mpr rfl

/-- C4 counterexample: for the first of two adjacent debug labels at the top
of a function body, the collected metadata does not have
hasStartMessage false with isStartMessage true - the start-message scan finds
the label itself first and sets both flags. -/
theorem first_label_hasStartMessage_cex :
    ¬ ((collectMetadata defaultAliases c4Site1).hasStartMessage = false
       ∧ (collectMetadata defaultAliases c4Site1).isStartMessage = true) := by
  intro h
  have hT : (collectMetadata defaultAliases c4Site1).hasStartMessage = true := rfl
  rw [hT] at h
  simp at h

/-- C4 (amended): for two adjacent debug labels at the top of a function
body, the metadata collected for the first has hasStartMessage true and
isStartMessage true, and the metadata collected for the second, after the
first has been rewritten into its handled replacement, has hasStartMessage
true and isStartMessage false. -/
theorem adjacent_labels_start_flags :
    (collectMetadata defaultAliases c4Site1).hasStartMessage = true
  ∧ (collectMetadata defaultAliases c4Site1).isStartMessage = true
  ∧ processLabeled envEmpty defaultOpts c4Site1 "debug" (.exprStmt false fooCall) =
      .ok (.replaced [c4Replacement1])
  ∧ (collectMetadata defaultAliases c4Site2).hasStartMessage = true
  ∧ (collectMetadata defaultAliases c4Site2).isStartMessage = false :=
  ⟨rfl, rfl, rfl, rfl, rfl⟩

/-- C5 (code defect): when the strip policy matches and TRACE_CONTEXT is
non-empty, hasStripOverride does not return a boolean - it throws a
TypeError reading the context field that collectMetadata never populates,
even when a TRACE_LEVEL override would otherwise preserve the statement. -/
theorem hasStripOverride_context_crash :
    hasStripOverride
        { nodeEnv := "production", preserveContexts := normalizeEnv (some "foo"),
          preserveFiles := normalizeEnv none, preserveLevels := normalizeEnv (some "warn") }
        "warn" mdSample
      = .error (.typeError "Cannot read property toLowerCase of undefined")
  ∧ shouldStrip
        { nodeEnv := "production", preserveContexts := normalizeEnv (some "foo"),
          preserveFiles := normalizeEnv none, preserveLevels := normalizeEnv (some "warn") }
        "warn" mdSample (.byEnv [("production", true)])
      = .error (.typeError "Cannot read property toLowerCase of undefined") :=
  ⟨rfl, rfl⟩

/-- C6 counterexample: the claim fails in two independent ways.  First, when
the compiled user-alias synthesizer is invoked, the template does not receive
the logFunction, content and metadata as named substitution slots - the
single-parameter wrapper forwards only the logFunction string.  Second, not
every string-valued entry is compiled into a synthesizer: the truthiness test
of src/index.js line 115 skips an empty-string entry, so normalization leaves
it as the uncompiled string. -/
theorem template_synthesizer_slots_cex :
    userSynthArg "METALOG" (.identifier "x") mdSample ≠
      specUserSynthArg "METALOG" (.identifier "x") mdSample
  ∧ (normalizeOpts
      { aliases := some [("log", .templateStr "")], strip := .disabled,
        logFunction := none, normalized := false }).aliases
      = some [("log", .templateStr "")]
  ∧ (normalizeOpts
      { aliases := some [("log", .templateStr "")], strip := .disabled,
        logFunction := none, normalized := false }).aliases
      ≠ some [("log", .compiled "")] := by
  refine ⟨?_, rfl, ?_⟩
  · simp [userSynthArg, specUserSynthArg]
  · have h : (normalizeOpts
        { aliases := some [("log", .templateStr "")], strip := .disabled,
          logFunction := none, normalized := false }).aliases
        = some [("log", .templateStr "")] := rfl
    rw [h]
    simp

/-- C6 (amended): every non-empty string-valued alias entry is compiled
exactly once into a synthesizer (the normalization is a no-op afterwards),
and when that synthesizer is invoked for a matching label the template is
expanded with only the logFunction name as its substitution argument - the
content node and the metadata are discarded by the one-parameter wrapper;
an empty-string entry is not compiled at all - normalization leaves it
unchanged, and being falsy it never matches a label. -/
theorem template_alias_compiled_once_logFunction_only
    (k src : String) (hsrc : src ≠ "") (strip : StripOpt) (lfo : Option String) :
    (normalizeOpts
      { aliases := some [(k, .templateStr src)], strip := strip,
        logFunction := lfo, normalized := false }).aliases = some [(k, .compiled src)]
  ∧ normalizeOpts (normalizeOpts
      { aliases := some [(k, .templateStr src)], strip := strip,
        logFunction := lfo, normalized := false }) =
      normalizeOpts
      { aliases := some [(k, .templateStr src)], strip := strip,
        logFunction := lfo, normalized := false }
  ∧ (∀ (lf : String) (content : JsNode) (md : Metadata),
       userSynthArg lf content md = .jsString lf)
  ∧ (∀ (lf : String) (content : JsNode) (md : Metadata),
       invokeAlias (.own (.compiled src)) lf content md = .ok (.templatedStr src lf))
  ∧ (∀ (k2 : String) (strip2 : StripOpt) (lfo2 : Option String),
       (normalizeOpts
         { aliases := some [(k2, .templateStr "")], strip := strip2,
           logFunction := lfo2, normalized := false }).aliases
         = some [(k2, .templateStr "")])
  ∧ aliasValTruthy (.templateStr "") = false := by
  refine ⟨?_, ?_, fun lf content md => rfl, fun lf content md => rfl,
          fun k2 strip2 lfo2 => rfl, rfl⟩
  · simp [normalizeOpts, compileAlias, hsrc]
  · simp [normalizeOpts]

/-- Witness for C6: a single user alias given as the template source
LOG(content) is compiled once, and the wrapper hands the template only the
log-function name. -/
theorem template_alias_compiled_once_logFunction_only_witness :
    (normalizeOpts
      { aliases := some [("log", .templateStr "LOG(content)")],
        strip := .disabled, logFunction := none, normalized := false }).aliases
      = some [("log", .compiled "LOG(content)")]
  ∧ userSynthArg "METALOG" fooCall mdSample = .jsString "METALOG" :=
  ⟨(template_alias_compiled_once_logFunction_only "log" "LOG(content)" (by decide)
      .disabled none).1,
   (template_alias_compiled_once_logFunction_only "log" "LOG(content)" (by decide)
      .disabled none).2.2.1 "METALOG" fooCall mdSample⟩

/-- C7: a rewritten (not stripped) label with a block body of N statements is
replaced by exactly those N statements, rewritten pointwise in their original
order, and a label with a single non-block body statement is replaced by that
one rewritten statement; the label wrapper never survives. -/
theorem label_body_unwrap_splice :
    (∀ (env : EnvCtx) (opts : Opts) (site : LabelSite) (name : String) (v : AliasVal)
       (ss : List JsNode),
       aliasLookup ((normalizeOpts opts).aliases.getD []) name = .own v →
       aliasInvocable v = true →
       shouldStrip env name (collectMetadata ((normalizeOpts opts).aliases.getD []) site)
         (normalizeOpts opts).strip = .ok false →
       nodeHasSideEffect (.blockStmt ss) = false →
       processLabeled env opts site name (.blockStmt ss) =
           .ok (.replaced (ss.map (rewritePure
             (synthOf v (jsLogFunction (normalizeOpts opts).logFunction)
               (collectMetadata ((normalizeOpts opts).aliases.getD []) site)))))
         ∧ (ss.map (rewritePure
             (synthOf v (jsLogFunction (normalizeOpts opts).logFunction)
               (collectMetadata ((normalizeOpts opts).aliases.getD []) site)))).length = ss.length)
  ∧ (∀ (env : EnvCtx) (opts : Opts) (site : LabelSite) (name : String) (v : AliasVal)
       (s : JsNode),
       aliasLookup ((normalizeOpts opts).aliases.getD []) name = .own v →
       aliasInvocable v = true →
       shouldStrip env name (collectMetadata ((normalizeOpts opts).aliases.getD []) site)
         (normalizeOpts opts).strip = .ok false →
       isBlockStmtNode s = false →
       nodeHasSideEffect s = false →
       processLabeled env opts site name s =
         .ok (.replaced [rewritePure
           (synthOf v (jsLogFunction (normalizeOpts opts).logFunction)
             (collectMetadata ((normalizeOpts opts).aliases.getD []) site)) s])) := by
  constructor
  · intro env opts site name v ss hlk hv hstrip hse
    have h := processLabeled_rewrites env opts site name (.blockStmt ss) v hlk hv hstrip hse
    rw [h, rewritePure]
    constructor
    · rw [rewritePures_eq_map]
      rfl
    · exact List.length_map ss _
  · intro env opts site name v s hlk hv hstrip hnb hse
    have h := processLabeled_rewrites env opts site name s v hlk hv hstrip hse
    rw [h, unwrapBody_nonblock]
    rw [rewritePure_isBlock]
    exact hnb

/-- Witness for C7: a debug label with a block body of two expression
statements is replaced by exactly the two synthesized statements in order,
and a debug label with a single expression-statement body is replaced by that
one synthesized statement. -/
theorem label_body_unwrap_splice_witness :
    processLabeled envEmpty defaultOpts c1Site "debug"
        (.blockStmt [.exprStmt false fooCall, .exprStmt false barCall]) =
      .ok (.replaced
        [.exprStmt true (nrserLog "METALOG" fooCall (collectMetadata defaultAliases c1Site) true "debug"),
         .exprStmt true (nrserLog "METALOG" barCall (collectMetadata defaultAliases c1Site) true "debug")])
  ∧ processLabeled envEmpty defaultOpts c1Site "debug" (.exprStmt false fooCall) =
      .ok (.replaced
        [.exprStmt true (nrserLog "METALOG" fooCall (collectMetadata defaultAliases c1Site) true "debug")]) :=
  ⟨((label_body_unwrap_splice.1 envEmpty defaultOpts c1Site "debug" (.builtin true "debug")
      [.exprStmt false fooCall, .exprStmt false barCall] rfl rfl rfl rfl).1),
   label_body_unwrap_splice.2 envEmpty defaultOpts c1Site "debug" (.builtin true "debug")
      (.exprStmt false fooCall) rfl rfl rfl rfl rfl⟩

/-- C8: normalizeOpts is idempotent - a second application returns the
options unchanged, with the same alias table and no recompilation - and when
aliases is absent the first application installs exactly the 15 default
entries: for each of the five levels the bare name and the Values variant
with the values flag true and the Refs variant with the values flag false. -/
theorem normalizeOpts_idempotent_defaults :
    (∀ opts : Opts, normalizeOpts (normalizeOpts opts) = normalizeOpts opts)
  ∧ (∀ (strip : StripOpt) (lfo : Option String),
      (normalizeOpts
        { aliases := none, strip := strip, logFunction := lfo,
          normalized := false }).aliases = some defaultAliases)
  ∧ defaultAliases.length = 15
  ∧ defaultAliases =
      [("error", .builtin true "error"), ("errorValues", .builtin true "error"),
       ("errorRefs", .builtin false "error"),
       ("warn", .builtin true "warn"), ("warnValues", .builtin true "warn"),
       ("warnRefs", .builtin false "warn"),
       ("info", .builtin true "info"), ("infoValues", .builtin true "info"),
       ("infoRefs", .builtin false "info"),
       ("debug", .builtin true "debug"), ("debugValues", .builtin true "debug"),
       ("debugRefs", .builtin false "debug"),
       ("trace", .builtin true "trace"), ("traceValues", .builtin true "trace"),
       ("traceRefs", .builtin false "trace")] := by
  refine ⟨?_, fun strip lfo => rfl, rfl, rfl⟩
  intro opts
  by_cases h : opts.normalized
  · simp [normalizeOpts, h]
  · cases ha : opts.aliases <;> simp [normalizeOpts, h, ha]

/-- C9 (code defect evidence): a label named toString, which is not a key of
the default alias table, is nevertheless processed - the property read finds
the inherited Object.prototype member, which is truthy, so with strip true
the labeled statement is removed instead of being left unchanged. -/
theorem toString_label_is_processed :
    aliasTruthy (aliasLookup defaultAliases "toString") = true
  ∧ processLabeled envEmpty stripAllOpts c9Site "toString" (.exprStmt false fooCall) =
      .ok .removed
  ∧ processLabeled envEmpty stripAllOpts c9Site "toString" (.exprStmt false fooCall) ≠
      .ok .unchanged := by
  have h : processLabeled envEmpty stripAllOpts c9Site "toString" (.exprStmt false fooCall) =
      .ok .removed := rfl
  refine ⟨rfl, h, ?_⟩
  rw [h]
  simp

/-- C10: a label whose (truthy) alias read matches and whose strip decision
is true is removed whole, with no purity validation of its body - the body
may contain assignments, declarations or returns and no error is raised. -/
theorem stripped_label_removed_without_purity_check (env : EnvCtx) (opts : Opts)
    (site : LabelSite) (name : String) (body : JsNode)
    (htr : aliasTruthy (aliasLookup ((normalizeOpts opts).aliases.getD []) name) = true)
    (hstrip : shouldStrip env name
        (collectMetadata ((normalizeOpts opts).aliases.getD []) site)
        (normalizeOpts opts).strip = .ok true) :
    processLabeled env opts site name body = .ok .removed := by
  simp [processLabeled, htr, processMatched, hstrip]

/-- Witness for C10: with strip true, a debug label whose body is the
assignment x = 1 is silently removed, even though its body contains a
side-effect construct. -/
theorem stripped_label_removed_without_purity_check_witness :
    processLabeled envEmpty stripAllOpts c1Site "debug"
        (.exprStmt false (.assignExpr (.identifier "x") (.numLit 1))) = .ok .removed
  ∧ nodeHasSideEffect (.exprStmt false (.assignExpr (.identifier "x") (.numLit 1))) = true :=
  ⟨stripped_label_removed_without_purity_check envEmpty stripAllOpts c1Site "debug"
      (.exprStmt false (.assignExpr (.identifier "x") (.numLit 1))) rfl rfl,
   rfl⟩

end Metalog
